import Mathlib

/-!
Shallow embedding of the robust multi-source ETL pipeline
(`src/robust_etl.py`) and proofs about the claims of its specification.

Modelling conventions:
* pandas DataFrames become `DataFrame`: an ordered list of column names plus
  rows, each row a list of cells in column order.
* Cells are a variant of null / string / integer / calendar date.  pandas
  NaN / NaT / None all collapse to `Cell.null`.
* Timestamps on ledger records and log/trace text are nondeterministic I/O
  and are omitted from the records; the fields the program branches on
  (stage, message, details, affected row counts) are kept.
* The file system and output destinations are an explicit environment
  (`Env`); exceptions raised by Python become `Except` results.
-/

/-- A cell of a loosely typed table.  pandas NaN/NaT/None collapse to
`null`; numbers are modelled as integers; datetimes as calendar dates. -/
inductive Cell where
  | null
  | str (s : String)
  | num (n : Int)
  | date (y m d : Nat)
deriving DecidableEq

/-- Left-pad a numeral with zeros to two digits (strftime behavior). -/
def pad2 (n : Nat) : String :=
  if n < 10 then "0" ++ toString n else toString n

/-- Left-pad a numeral with zeros to four digits (strftime behavior). -/
def pad4 (n : Nat) : String :=
  if n < 10 then "000" ++ toString n
  else if n < 100 then "00" ++ toString n
  else if n < 1000 then "0" ++ toString n
  else toString n

/-- ISO `YYYY-MM-DD` rendering used by `strftime` in `format_date`. -/
def fmtDate (y m d : Nat) : String :=
  pad4 y ++ "-" ++ pad2 m ++ "-" ++ pad2 d

/-- Gregorian leap-year test. -/
def isLeap (y : Nat) : Bool :=
  (y % 4 = 0 && y % 100 ≠ 0) || y % 400 = 0

/-- Days in a month, used to reject impossible dates such as 2020-13-45. -/
def daysInMonth (y m : Nat) : Nat :=
  if m = 2 then (if isLeap y then 29 else 28)
  else if m = 4 ∨ m = 6 ∨ m = 9 ∨ m = 11 then 30
  else 31

/-- ASCII whitespace test for the Python `strip` model. -/
def pyCharIsWS (c : Char) : Bool :=
  c = ' ' || c = '\t' || c = '\n' || c = '\r'

/-- Drop leading whitespace from a character list. -/
def dropWS : List Char → List Char
  | [] => []
  | c :: cs => if pyCharIsWS c then dropWS cs else c :: cs

/-- Python `str.strip()`: remove leading and trailing whitespace.
(Implemented over the character list so that proofs evaluate.) -/
def pyStrip (s : String) : String :=
  String.mk ((dropWS (dropWS s.toList).reverse).reverse)

/-- Python `str.lower()` (ASCII case folding suffices for every claim). -/
def pyToLower (s : String) : String :=
  String.mk (s.toList.map Char.toLower)

/-- Decimal digit value of a character, if any. -/
def digitVal? (c : Char) : Option Nat :=
  if '0' ≤ c ∧ c ≤ '9' then some (c.toNat - '0'.toNat) else none

def parseNatAux : List Char → Nat → Option Nat
  | [], acc => some acc
  | c :: cs, acc =>
    match digitVal? c with
    | some d => parseNatAux cs (acc * 10 + d)
    | none => none

/-- Parse a non-empty all-digit character list as a natural number. -/
def parseNatList (l : List Char) : Option Nat :=
  if l.isEmpty then none else parseNatAux l 0

/-- Split a character list on the dash separator. -/
def splitOnDashAux : List Char → List Char → List (List Char)
  | [], cur => [cur.reverse]
  | c :: cs, cur =>
    if c = '-' then cur.reverse :: splitOnDashAux cs []
    else splitOnDashAux cs (c :: cur)

/-- Model of the date parsing done by `pd.to_datetime(..., errors="coerce")`
on strings: accepts `YYYY-MM-DD` with a valid month and day, rejects
everything else (the real parser accepts more formats; every claim only
exercises ISO-formatted and invalid inputs). -/
def parseDateStr (s : String) : Option (Nat × Nat × Nat) :=
  match splitOnDashAux s.toList [] with
  | [ys, ms, ds] =>
    match parseNatList ys, parseNatList ms, parseNatList ds with
    | some y, some m, some d =>
      if 1 ≤ m ∧ m ≤ 12 ∧ 1 ≤ d ∧ d ≤ daysInMonth y m then some (y, m, d) else none
    | _, _, _ => none
  | _ => none

/-- Model of `pd.to_numeric(..., errors="coerce")` string parsing:
an optional minus sign followed by digits (fractional values are out of
scope for every claim). -/
def parseIntStr (s : String) : Option Int :=
  match s.toList with
  | '-' :: rest => (parseNatList rest).map (fun n => -(n : Int))
  | l => (parseNatList l).map (fun n => (n : Int))

/-- One application of `pd.to_datetime(..., errors="coerce")` to a cell:
unparseable values become null (NaT).  Numeric epoch interpretation is out
of scope: numbers are treated as unparseable. -/
def toDatetimeCell : Cell → Cell
  | Cell.null => Cell.null
  | Cell.str s =>
    match parseDateStr s with
    | some (y, m, d) => Cell.date y m d
    | none => Cell.null
  | Cell.num _ => Cell.null
  | Cell.date y m d => Cell.date y m d

/-- One application of `pd.to_numeric(..., errors="coerce")` to a cell:
unparseable values become null. -/
def toNumericCell : Cell → Cell
  | Cell.null => Cell.null
  | Cell.str s =>
    match parseIntStr s with
    | some n => Cell.num n
    | none => Cell.null
  | Cell.num n => Cell.num n
  | Cell.date _ _ _ => Cell.null

/-- Python `str()` on a non-null cell value. -/
def pyStr : Cell → String
  | Cell.null => "nan"
  | Cell.str s => s
  | Cell.num n => toString n
  | Cell.date y m d => fmtDate y m d

def strContainsAux (needle : List Char) : List Char → Bool
  | [] => needle.isEmpty
  | c :: cs => needle.isPrefixOf (c :: cs) || strContainsAux needle cs

/-- Python `needle in hay` substring test. -/
def strContains (hay needle : String) : Bool :=
  strContainsAux needle.toList hay.toList

/-- An entry of the error ledger (`ErrorHandler.log_error`); timestamp and
traceback text are nondeterministic and omitted. -/
structure ErrorRecord where
  stage : String
  error : String
  details : Option String
deriving DecidableEq

/-- An entry of the warning ledger (`ErrorHandler.log_warning`). -/
structure WarningRecord where
  stage : String
  warning : String
deriving DecidableEq

/-- An entry of the correction ledger (`ErrorHandler.log_correction`). -/
structure CorrectionRecord where
  stage : String
  action : String
  affected_rows : Nat
deriving DecidableEq

/-- The `ErrorHandler` class: three append-only logs. -/
structure ErrorHandler where
  errors : List ErrorRecord := []
  warnings : List WarningRecord := []
  corrections : List CorrectionRecord := []
deriving DecidableEq

def ErrorHandler.log_error (eh : ErrorHandler) (stage msg : String)
    (details : Option String) : ErrorHandler :=
  { eh with errors := eh.errors ++ [{ stage := stage, error := msg, details := details }] }

def ErrorHandler.log_warning (eh : ErrorHandler) (stage msg : String) : ErrorHandler :=
  { eh with warnings := eh.warnings ++ [{ stage := stage, warning := msg }] }

def ErrorHandler.log_correction (eh : ErrorHandler) (stage action : String)
    (affected : Nat) : ErrorHandler :=
  { eh with corrections := eh.corrections ++ [{ stage := stage, action := action, affected_rows := affected }] }

/-- The dictionary produced by `ErrorHandler.get_error_report`. -/
structure ErrorReport where
  total_errors : Nat
  total_warnings : Nat
  total_corrections : Nat
  errors : List ErrorRecord
  warnings : List WarningRecord
  corrections : List CorrectionRecord
deriving DecidableEq

def ErrorHandler.get_error_report (eh : ErrorHandler) : ErrorReport :=
  { total_errors := eh.errors.length
    total_warnings := eh.warnings.length
    total_corrections := eh.corrections.length
    errors := eh.errors
    warnings := eh.warnings
    corrections := eh.corrections }

/-- A pandas DataFrame: ordered column labels plus rows of cells aligned
with the labels positionally. -/
structure DataFrame where
  cols : List String
  rows : List (List Cell)
deriving DecidableEq

/-- Well-formedness: every row has one cell per column. -/
def DataFrame.WF (df : DataFrame) : Prop :=
  ∀ r ∈ df.rows, r.length = df.cols.length

instance (df : DataFrame) : Decidable df.WF := by
  unfold DataFrame.WF; infer_instance

/-- Index of the first column with the given label. -/
def colIdx (cols : List String) (c : String) : Option Nat :=
  match cols with
  | [] => none
  | c0 :: rest => if c0 = c then some 0 else (colIdx rest c).map (· + 1)

/-- The cell of one row under a column label (null when the label is
absent, mirroring reindexing semantics). -/
def cellAt (cols : List String) (r : List Cell) (c : String) : Cell :=
  match colIdx cols c with
  | some i => r.getD i Cell.null
  | none => Cell.null

/-- `df[c]`: the column as a list of cells, one per row. -/
def DataFrame.getColumn (df : DataFrame) (c : String) : List Cell :=
  df.rows.map (fun r => cellAt df.cols r c)

/-- Apply a function to the element at one position of a list. -/
def applyAt (i : Nat) (f : Cell → Cell) : List Cell → List Cell
  | [] => []
  | x :: xs =>
    match i with
    | 0 => f x :: xs
    | j + 1 => x :: applyAt j f xs

/-- `df[c] = df[c].apply(f)`: rewrite an existing column cell-wise. -/
def DataFrame.mapCol (df : DataFrame) (c : String) (f : Cell → Cell) : DataFrame :=
  match colIdx df.cols c with
  | none => df
  | some i => { df with rows := df.rows.map (applyAt i f) }

/-- `df[c] = v`: broadcast a scalar into a column, overwriting it when the
label already exists and appending it otherwise. -/
def DataFrame.setColScalar (df : DataFrame) (c : String) (v : Cell) : DataFrame :=
  match colIdx df.cols c with
  | some i => { df with rows := df.rows.map (applyAt i (fun _ => v)) }
  | none => { cols := df.cols ++ [c], rows := df.rows.map (fun r => r ++ [v]) }

/-- `df[cs]`: keep only the listed columns, in the listed order. -/
def DataFrame.selectCols (df : DataFrame) (cs : List String) : DataFrame :=
  { cols := cs, rows := df.rows.map (fun r => cs.map (cellAt df.cols r)) }

/-- Rename one label through a column mapping (first matching key wins,
as in a Python dict with unique keys). -/
def renameCol (mapping : List (String × String)) (c : String) : String :=
  match mapping with
  | [] => c
  | (k, v) :: rest => if k = c then v else renameCol rest c

/-- `df.rename(columns=mapping)`. -/
def DataFrame.renameCols (df : DataFrame) (mapping : List (String × String)) : DataFrame :=
  { df with cols := df.cols.map (renameCol mapping) }

/-- `drop_duplicates()` on the row list: keep the first occurrence of each
row, drop later exact full-row duplicates. -/
def dropDupAux (seen : List (List Cell)) : List (List Cell) → List (List Cell)
  | [] => []
  | r :: rs => if r ∈ seen then dropDupAux seen rs else r :: dropDupAux (r :: seen) rs

def dropDupRows (rows : List (List Cell)) : List (List Cell) :=
  dropDupAux [] rows

/-- Per-source registry entry (`self.data_sources[name]`). -/
structure SourceInfo where
  filename : String
  mapping : List (String × String)
  data : Option DataFrame := none
  status : String := "registered"
deriving DecidableEq

/-- Instance state of `RobustMultiSourceETL` (input/output directory paths
carry no decidable content and are absorbed into the environment). -/
structure ETLState where
  data_sources : List (String × SourceInfo) := []
  eh : ErrorHandler := {}
  consolidated_data : Option DataFrame := none
  transformed_data : Option DataFrame := none
  pipeline_status : String := "initialized"
deriving DecidableEq

/-- What the file system yields for one registered filename: the file is
absent, reading it raises (unsupported extension or parse failure), or it
parses to a table. -/
inductive FileOutcome where
  | missing
  | readError (msg : String)
  | ok (df : DataFrame)
deriving DecidableEq

/-- External environment of one run: the input files and whether the two
output writes (final CSV, error ledger JSON) succeed. -/
structure Env where
  fs : String → FileOutcome
  writeOk : Bool := true
  ledgerWriteOk : Bool := true

/-- Python dict lookup on an association list (keys unique in a dict). -/
def alookup {β : Type} : List (String × β) → String → Option β
  | [], _ => none
  | (k0, v) :: rest, k => if k0 = k then some v else alookup rest k

/-- Mutate the registry entry of one source in place. -/
def updateSource : List (String × SourceInfo) → String → (SourceInfo → SourceInfo) →
    List (String × SourceInfo)
  | [], _, _ => []
  | (k, v) :: rest, name, f =>
    (if k = name then (k, f v) else (k, v)) :: updateSource rest name f

def ETLState.lookupSource (s : ETLState) (name : String) : Option SourceInfo :=
  alookup s.data_sources name

def ETLState.setStatus (s : ETLState) (name status : String) : ETLState :=
  { s with data_sources := updateSource s.data_sources name (fun i => { i with status := status }) }

def ETLState.setData (s : ETLState) (name : String) (df : DataFrame) : ETLState :=
  { s with data_sources := updateSource s.data_sources name (fun i => { i with data := some df }) }

def ETLState.logError (s : ETLState) (stage msg : String) (details : Option String) : ETLState :=
  { s with eh := s.eh.log_error stage msg details }

def ETLState.logWarning (s : ETLState) (stage msg : String) : ETLState :=
  { s with eh := s.eh.log_warning stage msg }

def ETLState.setPipelineStatus (s : ETLState) (st : String) : ETLState :=
  { s with pipeline_status := st }

/-- `DataValidator.validate_dataframe`: false with a warning (never an
error) for an empty table; `df.empty`, zero columns and zero rows collapse
to the same test, so the issue list is summarized by one warning. -/
def validate_dataframe (eh : ErrorHandler) (df : DataFrame) (source_name : String) :
    ErrorHandler × Bool :=
  if df.rows.isEmpty || df.cols.isEmpty then
    (eh.log_warning source_name "Issues: DataFrame is empty", false)
  else (eh, true)

/-- Column-name heuristic of `rectify_data_types` for date coercion:
the lowercased name contains `date` or `dob`. -/
def dateColPred (col : String) : Bool :=
  strContains (pyToLower col) "date" || strContains (pyToLower col) "dob"

/-- Column-name heuristic of `rectify_data_types` for numeric coercion:
the lowercased name contains `salary`, or the name is literally one of
`salary`, `pay`, `annual_salary`, `compensation` (case-sensitive). -/
def salaryColPred (col : String) : Bool :=
  strContains (pyToLower col) "salary" ||
    decide (col ∈ ["salary", "pay", "annual_salary", "compensation"])

/-- One iteration of the column loop of `rectify_data_types`: the date
heuristic is checked first, the numeric heuristic only in the `elif`. -/
def rtStep (acc : Nat × DataFrame) (col : String) : Nat × DataFrame :=
  if dateColPred col then (acc.1 + 1, acc.2.mapCol col toDatetimeCell)
  else if salaryColPred col then (acc.1 + 1, acc.2.mapCol col toNumericCell)
  else acc

/-- `DataValidator.rectify_data_types`: coerce heuristically matched
columns, then log one summary correction when any column was touched. -/
def rectify_data_types (eh : ErrorHandler) (df : DataFrame) : ErrorHandler × DataFrame :=
  let r := df.cols.foldl rtStep (0, df)
  if r.1 > 0 then
    (eh.log_correction "data_type_fix"
      ("Rectified data types for " ++ toString r.1 ++ " columns") r.2.rows.length, r.2)
  else (eh, r.2)

/-- `DataValidator.rectify_duplicates`: drop exact full-row duplicates and
log a correction only when rows were actually removed. -/
def rectify_duplicates (eh : ErrorHandler) (df : DataFrame) (source_name : String) :
    ErrorHandler × DataFrame :=
  let initial := df.rows.length
  let df2 : DataFrame := { df with rows := dropDupRows df.rows }
  let removed := initial - df2.rows.length
  if removed > 0 then
    (eh.log_correction source_name "Removed duplicate rows" removed, df2)
  else (eh, df2)

/-- `fillna(v)` on one cell. -/
def fillCell (v : Cell) (c : Cell) : Cell :=
  if c = Cell.null then v else c

/-- Nulls present in a column (`df[col].isna().sum()`). -/
def DataFrame.nullCount (df : DataFrame) (col : String) : Nat :=
  (df.getColumn col).countP (fun c => decide (c = Cell.null))

/-- `DataValidator.rectify_missing_values`: for each fill rule whose
column exists, fill the nulls and log a correction with the null count,
only when that count is positive. -/
def rectify_missing_values (eh : ErrorHandler) (df : DataFrame)
    (fill_rules : List (String × Cell)) : ErrorHandler × DataFrame :=
  fill_rules.foldl
    (fun acc rule =>
      if rule.1 ∈ acc.2.cols then
        let missing := acc.2.nullCount rule.1
        if missing > 0 then
          (acc.1.log_correction "missing_values"
            ("Filled " ++ toString missing ++ " missing values in " ++ rule.1) missing,
           acc.2.mapCol rule.1 (fillCell rule.2))
        else acc
      else acc)
    (eh, df)

/-- `RobustMultiSourceETL.extract_source`: existence check, format/parse
dispatch, and structural validation, each failure logged and turned into
`none` with the matching per-source status. -/
def extract_source (env : Env) (s : ETLState) (name : String) : Option DataFrame × ETLState :=
  match s.lookupSource name with
  | none =>
    -- unreachable from `run`: callers iterate over registered names only
    (none, s.logError "extract_source" ("Unexpected error extracting " ++ name) none)
  | some info =>
    match env.fs info.filename with
    | FileOutcome.missing =>
      (none, ((s.logError "validation" ("File not found: " ++ info.filename)
        (some "This file is required for processing")).setStatus name "file_not_found"))
    | FileOutcome.readError msg =>
      (none, ((s.logError ("extraction_" ++ name) ("Failed to read file: " ++ info.filename)
        (some msg)).setStatus name "extraction_failed"))
    | FileOutcome.ok df =>
      let s2 := s.setStatus name "extracted"
      let v := validate_dataframe s2.eh df name
      if v.2 then (some df, { s2 with eh := v.1 })
      else (none, ({ s2 with eh := v.1 }).setStatus name "validation_failed")

/-- `RobustMultiSourceETL.map_columns`: warn about mapping keys absent
from the table, fail with one error when no key matches, otherwise select
the matching columns, rename them, and stamp the provenance column. -/
def map_columns (s : ETLState) (df : DataFrame) (source_name : String) :
    ETLState × Option DataFrame :=
  match s.lookupSource source_name with
  | none =>
    -- unreachable from `run`: a KeyError would be caught by the generic handler
    ((s.logError ("map_columns_" ++ source_name) "Error during column mapping"
      (some "KeyError")).setStatus source_name "mapping_error", none)
  | some info =>
    let keys := info.mapping.map (fun p => p.1)
    let available := keys.filter (fun c => decide (c ∈ df.cols))
    let missing := keys.filter (fun c => decide (c ∉ df.cols))
    let s2 := if missing.isEmpty then s
      else s.logWarning ("mapping_" ++ source_name) "Missing columns in mapping"
    if available.isEmpty then
      ((s2.logError ("mapping_" ++ source_name) "No columns could be mapped"
        (some "Available cols listed")).setStatus source_name "mapping_failed", none)
    else
      let df_mapped := (((df.selectCols available).renameCols info.mapping).setColScalar
        "source" (Cell.str source_name))
      (s2.setStatus source_name "mapped", some df_mapped)

/-- The per-source body of the `extract_and_map_all` loop: extract, map,
rectify types, rectify duplicates, store the mapped table. -/
def processSource (env : Env) (s : ETLState) (name : String) : ETLState × Bool :=
  let e := extract_source env s name
  match e.1 with
  | none => (e.2, false)
  | some df =>
    let m := map_columns e.2 df name
    match m.2 with
    | none => (m.1, false)
    | some dfm =>
      let r1 := rectify_data_types m.1.eh dfm
      let r2 := rectify_duplicates r1.1 r1.2 name
      (({ m.1 with eh := r2.1 }).setData name r2.2, true)

/-- Loop accumulator step of `extract_and_map_all` (state plus the count
of successfully processed sources). -/
def emStep (env : Env) (acc : ETLState × Nat) (name : String) : ETLState × Nat :=
  let r := processSource env acc.1 name
  (r.1, if r.2 then acc.2 + 1 else acc.2)

/-- `RobustMultiSourceETL.extract_and_map_all`: process every registered
source in registration order; the phase succeeds when at least one source
survived. -/
def extract_and_map_all (env : Env) (s : ETLState) : ETLState × Bool :=
  let names := s.data_sources.map (fun p => p.1)
  let r := names.foldl (emStep env) (s, 0)
  (r.1, decide (r.2 > 0))

/-- Column union in first-appearance order, as produced by
`pd.concat(..., sort=False)`. -/
def unionCols (dfs : List DataFrame) : List String :=
  dfs.foldl (fun acc df => acc ++ df.cols.filter (fun c => decide (c ∉ acc))) []

/-- Reindex one row from its origin columns to the union columns; columns
the origin lacks become null. -/
def reindexRow (ucols : List String) (cols : List String) (r : List Cell) : List Cell :=
  ucols.map (fun c => cellAt cols r c)

/-- `pd.concat(dataframes, ignore_index=True, sort=False)`: column-union
row-stack in list order. -/
def concatDF (dfs : List DataFrame) : DataFrame :=
  { cols := unionCols dfs
    rows := (dfs.map (fun df => df.rows.map (reindexRow (unionCols dfs) df.cols))).flatten }

/-- `RobustMultiSourceETL.consolidate`: stack every surviving mapped table
in registration order, or fail with one error when none survived. -/
def consolidate (s : ETLState) : ETLState × Bool :=
  let dataframes := s.data_sources.filterMap (fun p => p.2.data)
  if dataframes.isEmpty then
    (s.logError "consolidation" "No data sources to consolidate"
      (some "All sources failed to process"), false)
  else
    ({ s with consolidated_data := some (concatDF dataframes) }, true)

/-- `RobustMultiSourceETL.normalize_gender`: trimmed, case-folded exact
matching; everything unrecognized (including null) becomes Unknown. -/
def normalize_gender (gender_value : Cell) : String :=
  match gender_value with
  | Cell.null => "Unknown"
  | v =>
    let gender_str := pyToLower (pyStrip (pyStr v))
    if gender_str ∈ ["m", "mm", "male", "1"] then "M"
    else if gender_str ∈ ["f", "ff", "female", "2"] then "F"
    else if gender_str ∈ ["0", "unknown"] then "Unknown"
    else "Unknown"

/-- `RobustMultiSourceETL.format_date`: null stays null, parseable input is
rendered as ISO `YYYY-MM-DD`, unparseable input becomes null. -/
def format_date (date_value : Cell) : Cell :=
  match date_value with
  | Cell.null => Cell.null
  | Cell.date y m d => Cell.str (fmtDate y m d)
  | Cell.str s =>
    match parseDateStr s with
    | some (y, m, d) => Cell.str (fmtDate y m d)
    | none => Cell.null
  | Cell.num _ => Cell.null

/-- The structured configuration dict; a field is `none` exactly when the
key is absent from the dict. -/
structure Config where
  date_columns : Option (List String) := none
  fill_missing_values : Option (List (String × Cell)) := none
  remove_duplicates : Option Bool := none
  final_columns : Option (List String) := none
deriving DecidableEq

/-- Python truthiness of the config dict: at least one key present. -/
def Config.isTruthy (c : Config) : Bool :=
  c.date_columns.isSome || c.fill_missing_values.isSome ||
    c.remove_duplicates.isSome || c.final_columns.isSome

/-- `config.get("date_columns", []) if config else []` (an absent key and a
falsy dict both yield the empty list). -/
def cfgDateColumns : Option Config → List String
  | none => []
  | some c => c.date_columns.getD []

/-- `config.get("fill_missing_values", {}) if config else {}`. -/
def cfgFillRules : Option Config → List (String × Cell)
  | none => []
  | some c => c.fill_missing_values.getD []

/-- `config and config.get("remove_duplicates", True)`: a missing or empty
(falsy) config dict skips duplicate removal; otherwise the option defaults
to true. -/
def cfgRemoveDuplicates : Option Config → Bool
  | none => false
  | some c => c.isTruthy && c.remove_duplicates.getD true

/-- `config and config.get("final_columns")`: projection happens only for a
present, non-empty (truthy) final-column list. -/
def cfgFinalColumns : Option Config → Option (List String)
  | none => none
  | some c =>
    match c.final_columns with
    | some l => if l.isEmpty then none else some l
    | none => none

/-- `RobustMultiSourceETL.transform`: gender normalization, date
formatting, missing-value filling, optional duplicate removal, optional
final-column projection, in that fixed order. -/
def transform (s : ETLState) (config : Option Config) : ETLState × Bool :=
  match s.consolidated_data with
  | none =>
    (s.logError "transform" "No consolidated data to transform"
      (some "Run consolidate() first"), false)
  | some cd =>
    let t0 := if "gender" ∈ cd.cols then
        cd.mapCol "gender" (fun c => Cell.str (normalize_gender c))
      else cd
    let t1 := (cfgDateColumns config).foldl
      (fun t col => if col ∈ t.cols then t.mapCol col format_date else t) t0
    let fills := cfgFillRules config
    let r2 := if fills.isEmpty then (s.eh, t1) else rectify_missing_values s.eh t1 fills
    let r3 := if cfgRemoveDuplicates config then rectify_duplicates r2.1 r2.2 "transform"
      else r2
    let r4 :=
      match cfgFinalColumns config with
      | some fcols =>
        let available := fcols.filter (fun c => decide (c ∈ r3.2.cols))
        let missing := fcols.filter (fun c => decide (c ∉ r3.2.cols))
        let eh2 := if missing.isEmpty then r3.1
          else r3.1.log_warning "transform" "Requested columns not in data"
        (eh2, r3.2.selectCols available)
      | none => r3
    ({ s with eh := r4.1, transformed_data := some r4.2 }, true)

/-- `RobustMultiSourceETL.load`: write the transformed table; an I/O
failure is caught, logged and turned into a false return. -/
def load (env : Env) (s : ETLState) : ETLState × Bool :=
  match s.transformed_data with
  | none =>
    (s.logError "load" "No transformed data to load" (some "Run transform() first"), false)
  | some _ =>
    if env.writeOk then (s, true)
    else (s.logError "load" "Failed to save data" (some "IOError"), false)

/-- The `try` body of `RobustMultiSourceETL.run`: the four-phase state
machine with per-phase fail-fast.  No modelled operation raises inside the
body, so the generic `failed_unexpected` handler is never taken. -/
def runBody (env : Env) (config : Option Config) (s0 : ETLState) : Bool × ETLState :=
  let p1 := extract_and_map_all env s0
  if p1.2 then
    let p2 := consolidate p1.1
    if p2.2 then
      let p3 := transform p2.1 config
      if p3.2 then
        let p4 := load env p3.1
        if p4.2 then (true, p4.1.setPipelineStatus "completed_successfully")
        else (false, (p4.1.logError "pipeline" "Load phase failed"
          (some "Could not save output")).setPipelineStatus "failed_load")
      else (false, (p3.1.logError "pipeline" "Transformation phase failed"
        (some "Could not transform data")).setPipelineStatus "failed_transform")
    else (false, (p2.1.logError "pipeline" "Consolidation phase failed"
      (some "Could not merge sources")).setPipelineStatus "failed_consolidate")
  else (false, (p1.1.logError "pipeline" "Extract and map phase failed"
    (some "No sources processed successfully")).setPipelineStatus "failed_extract")

/-- `ErrorHandler.save_error_log`: persisting the ledger JSON; an I/O
failure here is uncaught and propagates out of `run`. -/
def save_error_log (env : Env) : Except String Unit :=
  if env.ledgerWriteOk then Except.ok () else Except.error "IOError: failed to write error_log.json"

/-- Python `enumerate` applied to an `int`: raises TypeError.  The source
writes `enumerate(report[..total_warnings..], 1)`, iterating the warning
COUNT instead of the warning list. -/
def enumerateOverInt (_n : Nat) : Except String (List (Nat × Nat)) :=
  Except.error "TypeError: int object is not iterable"

/-- `RobustMultiSourceETL.print_error_summary`: the error and correction
loops iterate their record lists and succeed, but the warning loop
iterates `enumerate` of the integer warning total and raises whenever the
warning branch is entered. -/
def print_error_summary (eh : ErrorHandler) : Except String Unit :=
  let report := eh.get_error_report
  if report.total_warnings > 0 then
    (enumerateOverInt report.total_warnings).map (fun _ => ())
  else Except.ok ()

/-- `RobustMultiSourceETL.run`: the body computes a boolean result and a
final state; the `finally` block then persists the ledger and prints the
summary, and an exception raised there replaces the return value. -/
def run (env : Env) (config : Option Config) (s0 : ETLState) :
    Except String (Bool × ETLState) := do
  let r := runBody env config s0
  let _ ← save_error_log env
  let _ ← print_error_summary r.2.eh
  pure r

/-! ### Concrete instances used by witnesses and counterexamples -/

/-- One-row table whose only column name merely contains `pay`. -/
def dfBasePay : DataFrame := { cols := ["base_pay"], rows := [[Cell.str "123"]] }

/-- Table with one date-matched and one salary-matched column. -/
def df2W : DataFrame :=
  { cols := ["hire_date", "annual_salary", "name"]
    rows := [[Cell.str "2020-01-05", Cell.str "50000", Cell.str "bob"]] }

/-- Source table for the run that logs a mapping warning. -/
def dfC1 : DataFrame := { cols := ["a"], rows := [[Cell.str "x"]] }

/-- One registered source whose mapping holds a key absent from its table. -/
def sC1 : ETLState :=
  { data_sources := [("s1", { filename := "a.csv", mapping := [("a", "name"), ("zz", "z")] })] }

/-- Environment with a healthy input file and both output writes succeeding. -/
def envC1 : Env := { fs := fun _ => FileOutcome.ok dfC1 }

/-- Consolidated table holding one exact full-row duplicate pair. -/
def dfDup3W : DataFrame := { cols := ["x"], rows := [[Cell.str "a"], [Cell.str "a"]] }

/-- State ready for the transform phase with duplicates present. -/
def sDup3W : ETLState := { consolidated_data := some dfDup3W }

/-- A truthy configuration that leaves duplicate removal at its default. -/
def c3W : Config := { remove_duplicates := some true }

/-- Registry entry whose mapping shares no key with the table below. -/
def info4W : SourceInfo := { filename := "a.csv", mapping := [("a", "x")] }

def s4W : ETLState := { data_sources := [("s1", info4W)] }

def df4W : DataFrame := { cols := ["b"], rows := [[Cell.num 1]] }

/-- Two registered sources (used for the all-sources-fail scenarios). -/
def sC5 : ETLState :=
  { data_sources := [("s1", { filename := "a.csv", mapping := [("a", "name")] }),
                     ("s2", { filename := "b.csv", mapping := [("a", "name")] })] }

/-- Environment where every file parses to a zero-row table, so every
source fails validation (a warning, not an error). -/
def envC5v : Env := { fs := fun _ => FileOutcome.ok { cols := ["a"], rows := [] } }

/-- Environment where every registered file is absent. -/
def envC5m : Env := { fs := fun _ => FileOutcome.missing }

def dfA6W : DataFrame := { cols := ["x"], rows := [[Cell.num 1]] }

def dfB6W : DataFrame := { cols := ["y"], rows := [[Cell.num 2], [Cell.num 3]] }

/-- Two sources that already carry mapped tables with disjoint columns. -/
def s6W : ETLState :=
  { data_sources := [("a", { filename := "a.csv", mapping := [], data := some dfA6W }),
                     ("b", { filename := "b.csv", mapping := [], data := some dfB6W })] }

def dfs6W : List DataFrame := [dfA6W, dfB6W]

/-- Table with exactly one null in the `age` column. -/
def df7W : DataFrame :=
  { cols := ["age", "name"]
    rows := [[Cell.null, Cell.str "a"], [Cell.num 3, Cell.str "b"]] }

/-- Table with an exact full-row duplicate, for the dedup claims. -/
def dfDup9W : DataFrame := { cols := ["x"], rows := [[Cell.str "a"], [Cell.str "a"]] }

/-- Source whose mapping renames a data column to the provenance label. -/
def df10W : DataFrame := { cols := ["src_col", "a"], rows := [[Cell.str "orig", Cell.str "x"]] }

def info10W : SourceInfo := { filename := "a.csv", mapping := [("src_col", "source"), ("a", "name")] }

def s10W : ETLState := { data_sources := [("s1", info10W)] }

/-- The mapped table the source above produces: the provenance assignment
overwrites the renamed `source` data column. -/
def dfm10W : DataFrame := { cols := ["source", "name"], rows := [[Cell.str "s1", Cell.str "x"]] }

/-! ### Helper lemmas about list and table primitives -/

theorem mapCongrMem {α β : Type} {l : List α} {f g : α → β}
    (h : ∀ a ∈ l, f a = g a) : l.map f = l.map g := by
  induction l with
  | nil => rfl
  | cons x xs ih =>
    simp only [List.map_cons, h x (List.mem_cons_self x xs)]
    rw [ih (fun a ha => h a (List.mem_cons_of_mem x ha))]

theorem mapConstReplicate {α β : Type} (l : List α) (b : β) :
    l.map (fun _ => b) = List.replicate l.length b := by
  induction l with
  | nil => rfl
  | cons x xs ih => simp [List.replicate_succ, ih]

theorem getD_map_lt {α β : Type} (g : α → β) (l : List α) (i : Nat)
    (h : i < l.length) (d : β) (d0 : α) : (l.map g).getD i d = g (l.getD i d0) := by
  induction l generalizing i with
  | nil => simp at h
  | cons x xs ih =>
    cases i with
    | zero => rfl
    | succ j => simpa using ih j (by simpa using h)

theorem getD_append_length {α : Type} (r : List α) (v d : α) :
    (r ++ [v]).getD r.length d = v := by
  induction r with
  | nil => rfl
  | cons x xs ih =>
    simp only [List.cons_append, List.length_cons, List.getD_cons_succ]
    exact ih

theorem applyAt_length (i : Nat) (f : Cell → Cell) (l : List Cell) :
    (applyAt i f l).length = l.length := by
  induction l generalizing i with
  | nil => simp [applyAt]
  | cons x xs ih =>
    cases i with
    | zero => rfl
    | succ j => simp [applyAt, ih]

theorem getD_applyAt_self (i : Nat) (f : Cell → Cell) (l : List Cell)
    (h : i < l.length) (d : Cell) : (applyAt i f l).getD i d = f (l.getD i d) := by
  induction l generalizing i with
  | nil => simp at h
  | cons x xs ih =>
    cases i with
    | zero => rfl
    | succ j => simpa [applyAt] using ih j (by simpa using h)

theorem getD_applyAt_ne (i j : Nat) (hne : j ≠ i) (f : Cell → Cell) (l : List Cell)
    (d : Cell) : (applyAt i f l).getD j d = l.getD j d := by
  induction l generalizing i j with
  | nil => simp [applyAt]
  | cons x xs ih =>
    cases i with
    | zero =>
      cases j with
      | zero => exact absurd rfl hne
      | succ j2 => simp [applyAt]
    | succ i2 =>
      cases j with
      | zero => simp [applyAt]
      | succ j2 => simpa [applyAt] using ih i2 j2 (by omega)

theorem colIdx_lt (cols : List String) (c : String) (i : Nat)
    (h : colIdx cols c = some i) : i < cols.length := by
  induction cols generalizing i with
  | nil => simp [colIdx] at h
  | cons c0 rest ih =>
    by_cases hc : c0 = c
    · simp only [colIdx, if_pos hc, Option.some.injEq] at h
      subst h
      simp
    · simp only [colIdx, if_neg hc, Option.map_eq_some'] at h
      obtain ⟨a, ha, rfl⟩ := h
      have := ih a ha
      simp only [List.length_cons]
      omega

theorem colIdx_get (cols : List String) (c : String) (i : Nat)
    (h : colIdx cols c = some i) : cols.getD i "" = c := by
  induction cols generalizing i with
  | nil => simp [colIdx] at h
  | cons c0 rest ih =>
    by_cases hc : c0 = c
    · simp only [colIdx, if_pos hc, Option.some.injEq] at h
      subst h
      simpa using hc
    · simp only [colIdx, if_neg hc, Option.map_eq_some'] at h
      obtain ⟨a, ha, rfl⟩ := h
      simpa using ih a ha

theorem colIdx_eq_none_iff (cols : List String) (c : String) :
    colIdx cols c = none ↔ c ∉ cols := by
  induction cols with
  | nil => simp [colIdx]
  | cons c0 rest ih =>
    by_cases hc : c0 = c
    · simp [colIdx, hc]
    · simp [colIdx, hc, Option.map_eq_none', ih, Ne.symm hc]

theorem colIdx_mem (cols : List String) (c : String) (h : c ∈ cols) :
    ∃ i, colIdx cols c = some i := by
  cases hci : colIdx cols c with
  | none => exact absurd ((colIdx_eq_none_iff cols c).mp hci) (not_not_intro h)
  | some i => exact ⟨i, rfl⟩

theorem colIdx_inj (cols : List String) (c c2 : String) (i j : Nat)
    (h1 : colIdx cols c = some i) (h2 : colIdx cols c2 = some j)
    (hne : c ≠ c2) : i ≠ j := by
  intro he
  exact hne (by rw [← colIdx_get cols c i h1, ← colIdx_get cols c2 j h2, he])

theorem colIdx_append_self (cols : List String) (c : String) (h : c ∉ cols) :
    colIdx (cols ++ [c]) c = some cols.length := by
  induction cols with
  | nil => simp [colIdx]
  | cons c0 rest ih =>
    have hc : c0 ≠ c := by
      intro he
      exact h (he ▸ List.mem_cons_self c0 rest)
    have hr : c ∉ rest := fun hm => h (List.mem_cons_of_mem c0 hm)
    simp [colIdx, hc, ih hr]

/-! ### Lemmas about the table operations -/

theorem mapCol_cols (df : DataFrame) (c : String) (f : Cell → Cell) :
    (df.mapCol c f).cols = df.cols := by
  unfold DataFrame.mapCol
  cases colIdx df.cols c <;> rfl

theorem mapCol_rows_length (df : DataFrame) (c : String) (f : Cell → Cell) :
    (df.mapCol c f).rows.length = df.rows.length := by
  unfold DataFrame.mapCol
  cases colIdx df.cols c <;> simp

theorem mapCol_WF (df : DataFrame) (c : String) (f : Cell → Cell) (h : df.WF) :
    (df.mapCol c f).WF := by
  unfold DataFrame.mapCol
  cases colIdx df.cols c with
  | none => exact h
  | some i =>
    intro r hr
    simp only [List.mem_map] at hr
    obtain ⟨r0, hr0, rfl⟩ := hr
    simpa [applyAt_length] using h r0 hr0

theorem getColumn_mapCol_self (df : DataFrame) (c : String) (f : Cell → Cell)
    (hwf : df.WF) (hmem : c ∈ df.cols) :
    (df.mapCol c f).getColumn c = (df.getColumn c).map f := by
  obtain ⟨i, hi⟩ := colIdx_mem df.cols c hmem
  unfold DataFrame.mapCol DataFrame.getColumn
  rw [hi]
  simp only [List.map_map]
  apply mapCongrMem
  intro r hr
  have hlen : i < r.length := by
    rw [hwf r hr]
    exact colIdx_lt df.cols c i hi
  simp only [Function.comp, cellAt, hi]
  exact getD_applyAt_self i f r hlen Cell.null

theorem getColumn_mapCol_ne (df : DataFrame) (c c2 : String) (f : Cell → Cell)
    (hne : c2 ≠ c) : (df.mapCol c f).getColumn c2 = df.getColumn c2 := by
  unfold DataFrame.mapCol
  cases hci : colIdx df.cols c with
  | none => rfl
  | some i =>
    unfold DataFrame.getColumn
    simp only [List.map_map]
    apply mapCongrMem
    intro r hr
    simp only [Function.comp, cellAt]
    cases hc2 : colIdx df.cols c2 with
    | none => rfl
    | some j =>
      have hij : j ≠ i := Ne.symm (colIdx_inj df.cols c c2 i j hci hc2 (Ne.symm hne))
      exact getD_applyAt_ne i j hij f r Cell.null

theorem getColumn_length (df : DataFrame) (c : String) :
    (df.getColumn c).length = df.rows.length := by
  simp [DataFrame.getColumn]

theorem setColScalar_rows_length (df : DataFrame) (c : String) (v : Cell) :
    (df.setColScalar c v).rows.length = df.rows.length := by
  unfold DataFrame.setColScalar
  cases colIdx df.cols c <;> simp

theorem getColumn_setColScalar_self (df : DataFrame) (c : String) (v : Cell)
    (hwf : df.WF) :
    (df.setColScalar c v).getColumn c = List.replicate df.rows.length v := by
  unfold DataFrame.setColScalar
  cases hci : colIdx df.cols c with
  | some i =>
    unfold DataFrame.getColumn
    simp only [List.map_map]
    rw [show df.rows.length = (df.rows.map (applyAt i (fun _ => v))).length by simp]
    rw [← mapConstReplicate]
    simp only [List.map_map]
    apply mapCongrMem
    intro r hr
    have hlen : i < r.length := by
      rw [hwf r hr]
      exact colIdx_lt df.cols c i hci
    simp only [Function.comp, cellAt, hci]
    exact getD_applyAt_self i (fun _ => v) r hlen Cell.null
  | none =>
    unfold DataFrame.getColumn
    have hmem : c ∉ df.cols := (colIdx_eq_none_iff df.cols c).mp hci
    have hidx := colIdx_append_self df.cols c hmem
    simp only [List.map_map]
    rw [show df.rows.length = (df.rows.map (fun r => r ++ [v])).length by simp]
    rw [← mapConstReplicate]
    simp only [List.map_map]
    apply mapCongrMem
    intro r hr
    have hlen : r.length = df.cols.length := hwf r hr
    simp only [Function.comp, cellAt, hidx, ← hlen]
    exact getD_append_length r v Cell.null

theorem selectCols_WF (df : DataFrame) (cs : List String) : (df.selectCols cs).WF := by
  intro r hr
  simp only [DataFrame.selectCols, List.mem_map] at hr
  obtain ⟨r0, _, rfl⟩ := hr
  simp [DataFrame.selectCols]

theorem selectCols_rows_length (df : DataFrame) (cs : List String) :
    (df.selectCols cs).rows.length = df.rows.length := by
  simp [DataFrame.selectCols]

theorem renameCols_WF (df : DataFrame) (mapping : List (String × String)) (h : df.WF) :
    (df.renameCols mapping).WF := by
  intro r hr
  simpa [DataFrame.renameCols] using h r hr

/-! ### Lemmas about duplicate removal -/

theorem mem_dropDupAux (seen l : List (List Cell)) (r : List Cell)
    (h : r ∈ dropDupAux seen l) : r ∉ seen ∧ r ∈ l := by
  induction l generalizing seen with
  | nil => simp [dropDupAux] at h
  | cons x xs ih =>
    simp only [dropDupAux] at h
    split at h
    · have := ih seen h
      exact ⟨this.1, List.mem_cons_of_mem x this.2⟩
    · rcases List.mem_cons.mp h with he | hm
      · subst he
        exact ⟨by assumption, List.mem_cons_self r xs⟩
      · have := ih (x :: seen) hm
        refine ⟨fun hs => this.1 (List.mem_cons_of_mem x hs), List.mem_cons_of_mem x this.2⟩

theorem nodup_dropDupAux (seen l : List (List Cell)) : (dropDupAux seen l).Nodup := by
  induction l generalizing seen with
  | nil => simp [dropDupAux]
  | cons x xs ih =>
    simp only [dropDupAux]
    split
    · exact ih seen
    · refine List.nodup_cons.mpr ⟨fun hm => ?_, ih (x :: seen)⟩
      exact (mem_dropDupAux (x :: seen) xs x hm).1 (List.mem_cons_self x seen)

theorem dropDupAux_eq_self (seen l : List (List Cell)) (hnd : l.Nodup)
    (hdisj : ∀ r ∈ l, r ∉ seen) : dropDupAux seen l = l := by
  induction l generalizing seen with
  | nil => rfl
  | cons x xs ih =>
    simp only [dropDupAux]
    rw [if_neg (hdisj x (List.mem_cons_self x xs))]
    congr 1
    apply ih (x :: seen) (List.Nodup.of_cons hnd)
    intro r hr
    simp only [List.mem_cons]
    push_neg
    refine ⟨fun he => ?_, hdisj r (List.mem_cons_of_mem x hr)⟩
    subst he
    exact (List.nodup_cons.mp hnd).1 hr

theorem dropDupRows_nodup (l : List (List Cell)) : (dropDupRows l).Nodup :=
  nodup_dropDupAux [] l

theorem dropDupRows_idem (l : List (List Cell)) :
    dropDupRows (dropDupRows l) = dropDupRows l :=
  dropDupAux_eq_self [] (dropDupRows l) (dropDupRows_nodup l) (fun r _ => List.not_mem_nil r)

theorem dropDupAux_length_le (seen l : List (List Cell)) :
    (dropDupAux seen l).length ≤ l.length := by
  induction l generalizing seen with
  | nil => simp [dropDupAux]
  | cons x xs ih =>
    simp only [dropDupAux]
    split
    · exact Nat.le_succ_of_le (ih seen)
    · simpa using Nat.succ_le_succ (ih (x :: seen))

theorem dropDupRows_length_le (l : List (List Cell)) :
    (dropDupRows l).length ≤ l.length :=
  dropDupAux_length_le [] l

/-! ### Lemmas about the registry association list -/

theorem alookup_mem {β : Type} (l : List (String × β)) (k : String) (v : β)
    (h : alookup l k = some v) : (k, v) ∈ l := by
  induction l with
  | nil => simp [alookup] at h
  | cons p rest ih =>
    obtain ⟨k0, v0⟩ := p
    by_cases hk : k0 = k
    · subst hk
      unfold alookup at h
      rw [if_pos rfl] at h
      injection h with h2
      subst h2
      exact List.mem_cons_self _ _
    · unfold alookup at h
      rw [if_neg hk] at h
      exact List.mem_cons_of_mem _ (ih h)

theorem alookup_of_mem_keys {β : Type} (l : List (String × β)) (k : String)
    (h : k ∈ l.map Prod.fst) : ∃ v, alookup l k = some v := by
  induction l with
  | nil => simp at h
  | cons p rest ih =>
    obtain ⟨k0, v0⟩ := p
    by_cases hk : k0 = k
    · subst hk
      exact ⟨v0, by simp [alookup]⟩
    · simp only [List.map_cons, List.mem_cons] at h
      rcases h with he | hm
      · exact absurd he.symm hk
      · simpa [alookup, hk] using ih hm

theorem alookup_updateSource_self (l : List (String × SourceInfo)) (name : String)
    (f : SourceInfo → SourceInfo) :
    alookup (updateSource l name f) name = (alookup l name).map f := by
  induction l with
  | nil => rfl
  | cons p rest ih =>
    obtain ⟨k0, v0⟩ := p
    by_cases hk : k0 = name
    · unfold updateSource
      rw [if_pos hk]
      unfold alookup
      rw [if_pos hk, if_pos hk]
      rfl
    · unfold updateSource
      rw [if_neg hk]
      unfold alookup
      rw [if_neg hk, if_neg hk]
      exact ih

theorem alookup_updateSource_ne (l : List (String × SourceInfo)) (name k : String)
    (f : SourceInfo → SourceInfo) (h : k ≠ name) :
    alookup (updateSource l name f) k = alookup l k := by
  induction l with
  | nil => rfl
  | cons p rest ih =>
    obtain ⟨k0, v0⟩ := p
    by_cases hk0 : k0 = name
    · have hkk : k0 ≠ k := by
        rw [hk0]
        exact Ne.symm h
      unfold updateSource
      rw [if_pos hk0]
      unfold alookup
      rw [if_neg hkk, if_neg hkk]
      exact ih
    · unfold updateSource
      rw [if_neg hk0]
      unfold alookup
      by_cases hk : k0 = k
      · rw [if_pos hk, if_pos hk]
      · rw [if_neg hk, if_neg hk]
        exact ih

theorem updateSource_keyfile (l : List (String × SourceInfo)) (name : String)
    (f : SourceInfo → SourceInfo) (hf : ∀ i, (f i).filename = i.filename) :
    (updateSource l name f).map (fun p => (p.1, p.2.filename)) =
      l.map (fun p => (p.1, p.2.filename)) := by
  induction l with
  | nil => rfl
  | cons p rest ih =>
    obtain ⟨k0, v0⟩ := p
    by_cases hk : k0 = name
    · simp [updateSource, if_pos hk, hf, ih]
    · simp [updateSource, if_neg hk, ih]

theorem updateSource_keys (l : List (String × SourceInfo)) (name : String)
    (f : SourceInfo → SourceInfo) :
    (updateSource l name f).map Prod.fst = l.map Prod.fst := by
  induction l with
  | nil => rfl
  | cons p rest ih =>
    obtain ⟨k0, v0⟩ := p
    by_cases hk : k0 = name
    · simp [updateSource, if_pos hk, ih]
    · simp [updateSource, if_neg hk, ih]

/-! ### Lemmas about consolidation -/

theorem mem_unionFold (dfs : List DataFrame) (acc : List String) (c : String) :
    (c ∈ dfs.foldl (fun acc df => acc ++ df.cols.filter (fun x => decide (x ∉ acc))) acc) ↔
      c ∈ acc ∨ ∃ df ∈ dfs, c ∈ df.cols := by
  induction dfs generalizing acc with
  | nil => simp
  | cons d ds ih =>
    rw [List.foldl_cons, ih]
    constructor
    · rintro (hm | hrest)
      · rcases List.mem_append.mp hm with h1 | h2
        · exact Or.inl h1
        · have := List.mem_filter.mp h2
          exact Or.inr ⟨d, List.mem_cons_self d ds, this.1⟩
      · obtain ⟨df, hdf, hc⟩ := hrest
        exact Or.inr ⟨df, List.mem_cons_of_mem d hdf, hc⟩
    · rintro (hacc | ⟨df, hdf, hc⟩)
      · exact Or.inl (List.mem_append.mpr (Or.inl hacc))
      · rcases List.mem_cons.mp hdf with he | hm
        · subst he
          by_cases hca : c ∈ acc
          · exact Or.inl (List.mem_append.mpr (Or.inl hca))
          · exact Or.inl (List.mem_append.mpr (Or.inr
              (List.mem_filter.mpr ⟨hc, by simpa using hca⟩)))
        · exact Or.inr ⟨df, hm, hc⟩

theorem mem_unionCols (dfs : List DataFrame) (c : String) :
    c ∈ unionCols dfs ↔ ∃ df ∈ dfs, c ∈ df.cols := by
  unfold unionCols
  rw [mem_unionFold]
  simp

theorem concatDF_rows_length (dfs : List DataFrame) :
    (concatDF dfs).rows.length = (dfs.map (fun df => df.rows.length)).sum := by
  unfold concatDF
  rw [List.length_flatten]
  congr 1
  rw [List.map_map]
  apply mapCongrMem
  intro df _
  simp

theorem cellAt_reindex_absent (ucols cols : List String) (r : List Cell) (c : String)
    (hmem : c ∈ ucols) (habs : c ∉ cols) :
    cellAt ucols (reindexRow ucols cols r) c = Cell.null := by
  obtain ⟨i, hi⟩ := colIdx_mem ucols c hmem
  have hstep : cellAt ucols (reindexRow ucols cols r) c =
      (reindexRow ucols cols r).getD i Cell.null := by
    unfold cellAt
    rw [hi]
  rw [hstep]
  unfold reindexRow
  have hlt := colIdx_lt ucols c i hi
  rw [getD_map_lt (fun c => cellAt cols r c) ucols i hlt Cell.null ""]
  rw [colIdx_get ucols c i hi]
  unfold cellAt
  rw [(colIdx_eq_none_iff cols c).mpr habs]

/-! ### Lemmas about the rectification passes -/

theorem rectify_duplicates_parts (eh : ErrorHandler) (df : DataFrame) (n : String) :
    (rectify_duplicates eh df n).2.rows = dropDupRows df.rows ∧
      (rectify_duplicates eh df n).2.cols = df.cols := by
  unfold rectify_duplicates
  dsimp only
  split <;> exact ⟨rfl, rfl⟩

/-- Full characterization of the column loop of `rectify_data_types`:
the counter counts heuristically matched columns, date-matched columns are
datetime-coerced, salary-matched columns numeric-coerced, everything else
untouched; an untouched loop leaves the accumulator unchanged. -/
theorem rtFold_spec (L : List String) (df : DataFrame) (n : Nat) (hwf : df.WF)
    (hnd : L.Nodup) (hsub : ∀ c ∈ L, c ∈ df.cols) :
    (L.foldl rtStep (n, df)).1 = n + L.countP (fun c => dateColPred c || salaryColPred c) ∧
    (L.foldl rtStep (n, df)).2.cols = df.cols ∧
    (L.foldl rtStep (n, df)).2.WF ∧
    (L.foldl rtStep (n, df)).2.rows.length = df.rows.length ∧
    (∀ c ∈ L, dateColPred c = true →
      (L.foldl rtStep (n, df)).2.getColumn c = (df.getColumn c).map toDatetimeCell) ∧
    (∀ c ∈ L, dateColPred c = false → salaryColPred c = true →
      (L.foldl rtStep (n, df)).2.getColumn c = (df.getColumn c).map toNumericCell) ∧
    (∀ c, (c ∉ L ∨ (dateColPred c = false ∧ salaryColPred c = false)) →
      (L.foldl rtStep (n, df)).2.getColumn c = df.getColumn c) ∧
    (L.countP (fun c => dateColPred c || salaryColPred c) = 0 →
      L.foldl rtStep (n, df) = (n, df)) := by
  induction L generalizing df n with
  | nil => simpa using hwf
  | cons col L2 ih =>
    rw [List.foldl_cons]
    have hnotin : col ∉ L2 := (List.nodup_cons.mp hnd).1
    have hndL : L2.Nodup := List.Nodup.of_cons hnd
    have hcolmem : col ∈ df.cols := hsub col (List.mem_cons_self col L2)
    cases hd : dateColPred col with
    | true =>
      have hstep : rtStep (n, df) col = (n + 1, df.mapCol col toDatetimeCell) := by
        unfold rtStep
        simp [hd]
      rw [hstep]
      have hwf1 : (df.mapCol col toDatetimeCell).WF := mapCol_WF df col toDatetimeCell hwf
      have hcols1 : (df.mapCol col toDatetimeCell).cols = df.cols :=
        mapCol_cols df col toDatetimeCell
      have hsub1 : ∀ c ∈ L2, c ∈ (df.mapCol col toDatetimeCell).cols := by
        intro c hc
        rw [hcols1]
        exact hsub c (List.mem_cons_of_mem col hc)
      obtain ⟨ih1, ih2, ih3, ih4, ih5, ih6, ih7, _⟩ := ih (df.mapCol col toDatetimeCell) (n + 1) hwf1 hndL hsub1
      refine ⟨?_, ?_, ih3, ?_, ?_, ?_, ?_, ?_⟩
      · rw [ih1, List.countP_cons]
        simp only [hd, Bool.true_or, if_pos]
        omega
      · rw [ih2, hcols1]
      · rw [ih4, mapCol_rows_length]
      · intro c hc hdc
        rcases List.mem_cons.mp hc with he | hm
        · subst he
          rw [ih7 c (Or.inl hnotin)]
          exact getColumn_mapCol_self df c toDatetimeCell hwf hcolmem
        · rw [ih5 c hm hdc]
          congr 1
          exact getColumn_mapCol_ne df col c toDatetimeCell (fun he => hnotin (he ▸ hm))
      · intro c hc hdc hsc
        rcases List.mem_cons.mp hc with he | hm
        · subst he
          rw [hd] at hdc
          exact absurd hdc (by simp)
        · rw [ih6 c hm hdc hsc]
          congr 1
          exact getColumn_mapCol_ne df col c toDatetimeCell (fun he => hnotin (he ▸ hm))
      · intro c hc
        rcases hc with hnot | hpred
        · have hcol : c ≠ col := fun he => hnot (he ▸ List.mem_cons_self col L2)
          have hcL : c ∉ L2 := fun hm => hnot (List.mem_cons_of_mem col hm)
          rw [ih7 c (Or.inl hcL)]
          exact getColumn_mapCol_ne df col c toDatetimeCell hcol
        · have hcol : c ≠ col := by
            intro he
            rw [he, hd] at hpred
            exact absurd hpred.1 (by simp)
          rw [ih7 c (Or.inr hpred)]
          exact getColumn_mapCol_ne df col c toDatetimeCell hcol
      · intro h0
        rw [List.countP_cons] at h0
        simp [hd] at h0
    | false =>
      cases hs : salaryColPred col with
      | true =>
        have hstep : rtStep (n, df) col = (n + 1, df.mapCol col toNumericCell) := by
          unfold rtStep
          simp [hd, hs]
        rw [hstep]
        have hwf1 : (df.mapCol col toNumericCell).WF := mapCol_WF df col toNumericCell hwf
        have hcols1 : (df.mapCol col toNumericCell).cols = df.cols :=
          mapCol_cols df col toNumericCell
        have hsub1 : ∀ c ∈ L2, c ∈ (df.mapCol col toNumericCell).cols := by
          intro c hc
          rw [hcols1]
          exact hsub c (List.mem_cons_of_mem col hc)
        obtain ⟨ih1, ih2, ih3, ih4, ih5, ih6, ih7, _⟩ := ih (df.mapCol col toNumericCell) (n + 1) hwf1 hndL hsub1
        refine ⟨?_, ?_, ih3, ?_, ?_, ?_, ?_, ?_⟩
        · rw [ih1, List.countP_cons]
          simp only [hd, hs, Bool.false_or, if_pos]
          omega
        · rw [ih2, hcols1]
        · rw [ih4, mapCol_rows_length]
        · intro c hc hdc
          rcases List.mem_cons.mp hc with he | hm
          · subst he
            rw [hd] at hdc
            exact absurd hdc (by simp)
          · rw [ih5 c hm hdc]
            congr 1
            exact getColumn_mapCol_ne df col c toNumericCell (fun he => hnotin (he ▸ hm))
        · intro c hc hdc hsc
          rcases List.mem_cons.mp hc with he | hm
          · subst he
            rw [ih7 c (Or.inl hnotin)]
            exact getColumn_mapCol_self df c toNumericCell hwf hcolmem
          · rw [ih6 c hm hdc hsc]
            congr 1
            exact getColumn_mapCol_ne df col c toNumericCell (fun he => hnotin (he ▸ hm))
        · intro c hc
          rcases hc with hnot | hpred
          · have hcol : c ≠ col := fun he => hnot (he ▸ List.mem_cons_self col L2)
            have hcL : c ∉ L2 := fun hm => hnot (List.mem_cons_of_mem col hm)
            rw [ih7 c (Or.inl hcL)]
            exact getColumn_mapCol_ne df col c toNumericCell hcol
          · have hcol : c ≠ col := by
              intro he
              rw [he, hs] at hpred
              exact absurd hpred.2 (by simp)
            rw [ih7 c (Or.inr hpred)]
            exact getColumn_mapCol_ne df col c toNumericCell hcol
        · intro h0
          rw [List.countP_cons] at h0
          simp [hd, hs] at h0
      | false =>
        have hstep : rtStep (n, df) col = (n, df) := by
          unfold rtStep
          simp [hd, hs]
        rw [hstep]
        obtain ⟨ih1, ih2, ih3, ih4, ih5, ih6, ih7, ih8⟩ := ih df n hwf hndL
          (fun c hc => hsub c (List.mem_cons_of_mem col hc))
        refine ⟨?_, ih2, ih3, ih4, ?_, ?_, ?_, ?_⟩
        · rw [ih1, List.countP_cons]
          simp [hd, hs]
        · intro c hc hdc
          rcases List.mem_cons.mp hc with he | hm
          · subst he
            rw [hd] at hdc
            exact absurd hdc (by simp)
          · exact ih5 c hm hdc
        · intro c hc hdc hsc
          rcases List.mem_cons.mp hc with he | hm
          · subst he
            rw [hs] at hsc
            exact absurd hsc (by simp)
          · exact ih6 c hm hdc hsc
        · intro c hc
          rcases hc with hnot | hpred
          · exact ih7 c (Or.inl (fun hm => hnot (List.mem_cons_of_mem col hm)))
          · exact ih7 c (Or.inr hpred)
        · intro h0
          rw [List.countP_cons] at h0
          simp only [hd, hs, Bool.or_self, if_neg] at h0
          exact ih8 (by omega)

/-! ### Claim theorems -/

/-- Claim C8: gender normalization is a total function returning only M, F
or Unknown; after trimming and case-folding it maps m/mm/male/1 to M,
f/ff/female/2 to F, 0/unknown to Unknown, and everything else (null,
empty, unrecognized) to Unknown; in particular the four spec examples
hold. -/
theorem claim_C8 :
    (∀ c : Cell, normalize_gender c = "M" ∨ normalize_gender c = "F" ∨
      normalize_gender c = "Unknown") ∧
    (∀ s : String, pyToLower (pyStrip s) ∈ ["m", "mm", "male", "1"] →
      normalize_gender (Cell.str s) = "M") ∧
    (∀ s : String, pyToLower (pyStrip s) ∈ ["f", "ff", "female", "2"] →
      normalize_gender (Cell.str s) = "F") ∧
    (∀ s : String, pyToLower (pyStrip s) ∈ ["0", "unknown"] →
      normalize_gender (Cell.str s) = "Unknown") ∧
    (∀ s : String, pyToLower (pyStrip s) ∉ ["m", "mm", "male", "1"] →
      pyToLower (pyStrip s) ∉ ["f", "ff", "female", "2"] →
      normalize_gender (Cell.str s) = "Unknown") ∧
    normalize_gender (Cell.str "  MALE ") = "M" ∧
    normalize_gender (Cell.str "0") = "Unknown" ∧
    normalize_gender Cell.null = "Unknown" ∧
    normalize_gender (Cell.str "xyz") = "Unknown" ∧
    normalize_gender (Cell.num 1) = "M" ∧
    normalize_gender (Cell.num 2) = "F" ∧
    normalize_gender (Cell.num 0) = "Unknown" := by
  have hstep : ∀ s : String,
      (if s ∈ ["m", "mm", "male", "1"] then "M"
       else if s ∈ ["f", "ff", "female", "2"] then "F"
       else if s ∈ ["0", "unknown"] then "Unknown"
       else "Unknown") = "M" ∨
      (if s ∈ ["m", "mm", "male", "1"] then "M"
       else if s ∈ ["f", "ff", "female", "2"] then "F"
       else if s ∈ ["0", "unknown"] then "Unknown"
       else "Unknown") = "F" ∨
      (if s ∈ ["m", "mm", "male", "1"] then "M"
       else if s ∈ ["f", "ff", "female", "2"] then "F"
       else if s ∈ ["0", "unknown"] then "Unknown"
       else "Unknown") = "Unknown" := by
    intro s
    split
    · exact Or.inl rfl
    · split
      · exact Or.inr (Or.inl rfl)
      · split
        · exact Or.inr (Or.inr rfl)
        · exact Or.inr (Or.inr rfl)
  refine ⟨?_, ?_, ?_, ?_, ?_, by decide, by decide, rfl, by decide, by decide, by decide, by decide⟩
  · intro c
    cases c with
    | null => exact Or.inr (Or.inr rfl)
    | str s => exact hstep (pyToLower (pyStrip s))
    | num n => exact hstep _
    | date y m d => exact hstep _
  · intro s h
    simp only [normalize_gender, pyStr]
    rw [if_pos h]
  · intro s h
    have hm : pyToLower (pyStrip s) ∉ ["m", "mm", "male", "1"] := by
      simp only [List.mem_cons, List.not_mem_nil, or_false] at h ⊢
      rcases h with h | h | h | h <;> rw [h] <;> decide
    simp only [normalize_gender, pyStr]
    rw [if_neg hm, if_pos h]
  · intro s h
    have hm : pyToLower (pyStrip s) ∉ ["m", "mm", "male", "1"] := by
      simp only [List.mem_cons, List.not_mem_nil, or_false] at h ⊢
      rcases h with h | h <;> rw [h] <;> decide
    have hf : pyToLower (pyStrip s) ∉ ["f", "ff", "female", "2"] := by
      simp only [List.mem_cons, List.not_mem_nil, or_false] at h ⊢
      rcases h with h | h <;> rw [h] <;> decide
    simp only [normalize_gender, pyStr]
    rw [if_neg hm, if_neg hf, if_pos h]
  · intro s hm hf
    simp only [normalize_gender, pyStr]
    rw [if_neg hm, if_neg hf]
    split <;> rfl

/-- Witness for C8: the marquee spec example, with the membership
hypothesis discharged concretely. -/
theorem claim_C8_witness :
    pyToLower (pyStrip "  MALE ") ∈ ["m", "mm", "male", "1"] ∧
      normalize_gender (Cell.str "  MALE ") = "M" :=
  ⟨by decide, claim_C8.2.1 "  MALE " (by decide)⟩

/-- Normal form of `rectify_duplicates`: the kept table always has the
deduplicated rows, and the correction is logged exactly when rows were
removed. -/
theorem rectify_duplicates_eq (eh : ErrorHandler) (df : DataFrame) (name : String) :
    rectify_duplicates eh df name =
      (if (dropDupRows df.rows).length < df.rows.length
       then eh.log_correction name "Removed duplicate rows"
          (df.rows.length - (dropDupRows df.rows).length)
       else eh,
       { df with rows := dropDupRows df.rows }) := by
  unfold rectify_duplicates
  dsimp only
  by_cases h : df.rows.length - (dropDupRows df.rows).length > 0
  · rw [if_pos h, if_pos (by omega)]
  · rw [if_neg h, if_neg (by omega)]

/-- Claim C9: duplicate removal is idempotent — a second application of
the pass returns the same ledger and the same table — and a correction is
logged exactly on an application that removed rows (with the removed
count). -/
theorem claim_C9 (eh : ErrorHandler) (df : DataFrame) (name : String) :
    (rectify_duplicates eh df name).2.rows = dropDupRows df.rows ∧
    rectify_duplicates (rectify_duplicates eh df name).1 (rectify_duplicates eh df name).2 name
      = rectify_duplicates eh df name ∧
    (df.rows.length = (dropDupRows df.rows).length →
      rectify_duplicates eh df name = (eh, { df with rows := dropDupRows df.rows })) ∧
    ((dropDupRows df.rows).length < df.rows.length →
      (rectify_duplicates eh df name).1.corrections =
        eh.corrections ++
          [⟨name, "Removed duplicate rows", df.rows.length - (dropDupRows df.rows).length⟩]) := by
  have h1 := rectify_duplicates_eq eh df name
  refine ⟨by rw [h1], ?_, ?_, ?_⟩
  · rw [h1]
    rw [rectify_duplicates_eq]
    simp [dropDupRows_idem]
  · intro h
    rw [h1, if_neg (by omega)]
  · intro h
    rw [h1, if_pos h]
    simp [ErrorHandler.log_correction]

/-- Witness for C9 at a table with one duplicate pair. -/
theorem claim_C9_witness :
    (rectify_duplicates {} dfDup9W "t").2.rows = [[Cell.str "a"]] ∧
    rectify_duplicates (rectify_duplicates {} dfDup9W "t").1
        (rectify_duplicates {} dfDup9W "t").2 "t"
      = rectify_duplicates {} dfDup9W "t" :=
  ⟨by decide, (claim_C9 {} dfDup9W "t").2.1⟩

/-- Claim C4: when no mapping key occurs among the table's columns,
`map_columns` returns none, appends exactly one error record, and sets the
source's status to `mapping_failed` (missing-key warnings are logged
separately, never as errors). -/
theorem claim_C4 (s : ETLState) (df : DataFrame) (name : String) (info : SourceInfo)
    (hlk : s.lookupSource name = some info)
    (hnone : ∀ p ∈ info.mapping, p.1 ∉ df.cols) :
    (map_columns s df name).2 = none ∧
    (map_columns s df name).1.eh.errors.length = s.eh.errors.length + 1 ∧
    (map_columns s df name).1.lookupSource name = some { info with status := "mapping_failed" } := by
  have hav : (info.mapping.map (fun p => p.1)).filter (fun c => decide (c ∈ df.cols)) = [] := by
    rw [List.filter_eq_nil_iff]
    intro a ha
    simp only [List.mem_map] at ha
    obtain ⟨p, hp, he⟩ := ha
    subst he
    simpa using hnone p hp
  unfold map_columns
  rw [hlk]
  dsimp only
  rw [hav]
  have hs2e : ∀ b : Bool,
      (if b then s else s.logWarning ("mapping_" ++ name) "Missing columns in mapping").eh.errors
        = s.eh.errors := by
    intro b
    cases b <;> simp [ETLState.logWarning, ErrorHandler.log_warning]
  have hs2d : ∀ b : Bool,
      (if b then s else s.logWarning ("mapping_" ++ name) "Missing columns in mapping").data_sources
        = s.data_sources := by
    intro b
    cases b <;> simp [ETLState.logWarning]
  refine ⟨rfl, ?_, ?_⟩
  · simp only [List.isEmpty_nil, if_pos, ETLState.setStatus, ETLState.logError,
      ErrorHandler.log_error]
    rw [hs2e]
    simp
  · simp only [List.isEmpty_nil, if_pos]
    unfold ETLState.lookupSource ETLState.setStatus
    dsimp only
    rw [alookup_updateSource_self]
    unfold ETLState.logError
    dsimp only
    rw [hs2d]
    unfold ETLState.lookupSource at hlk
    rw [hlk]
    rfl

/-- Witness for C4 at a one-source registry whose single mapping key is
absent from the table. -/
theorem claim_C4_witness :
    (map_columns s4W df4W "s1").2 = none ∧
    (map_columns s4W df4W "s1").1.eh.errors.length = s4W.eh.errors.length + 1 ∧
    (map_columns s4W df4W "s1").1.lookupSource "s1"
      = some { info4W with status := "mapping_failed" } :=
  claim_C4 s4W df4W "s1" info4W (by decide) (by decide)

/-- Claim C10: whenever `map_columns` succeeds, every row of the mapped
table carries the source identifier in the `source` column — the
provenance assignment overwrites even a data column renamed to `source`. -/
theorem claim_C10 (s : ETLState) (df : DataFrame) (name : String)
    (s2 : ETLState) (dfm : DataFrame)
    (h : map_columns s df name = (s2, some dfm)) :
    dfm.getColumn "source" = List.replicate dfm.rows.length (Cell.str name) := by
  unfold map_columns at h
  cases hlk : s.lookupSource name with
  | none =>
    rw [hlk] at h
    simp at h
  | some info =>
    rw [hlk] at h
    dsimp only at h
    split at h
    · simp at h
    · simp only [Prod.mk.injEq, Option.some.injEq] at h
      obtain ⟨hs2, hdfm⟩ := h
      subst hdfm
      have hwf : ((df.selectCols ((info.mapping.map (fun p => p.1)).filter
          (fun c => decide (c ∈ df.cols)))).renameCols info.mapping).WF :=
        renameCols_WF _ _ (selectCols_WF df _)
      rw [getColumn_setColScalar_self _ _ _ hwf]
      rw [setColScalar_rows_length]

/-- Witness for C10: the mapping renames `src_col` to `source`, and the
mapped table nevertheless holds the source id in every `source` cell. -/
theorem claim_C10_witness :
    map_columns s10W df10W "s1" = (s10W.setStatus "s1" "mapped", some dfm10W) ∧
    dfm10W.getColumn "source" = List.replicate dfm10W.rows.length (Cell.str "s1") :=
  ⟨by decide,
   claim_C10 s10W df10W "s1" (s10W.setStatus "s1" "mapped") dfm10W (by decide)⟩

/-- Claim C7: a fill rule whose column exists and holds k > 0 nulls
replaces exactly those nulls with the fill value, leaves all other cells
and columns unchanged, and logs exactly one correction with
affected-rows = k; with k = 0 or an absent column, nothing changes and
nothing is logged. -/
theorem claim_C7 (eh : ErrorHandler) (df : DataFrame) (col : String) (v : Cell)
    (hwf : df.WF) :
    (col ∈ df.cols →
      (df.nullCount col > 0 →
        (rectify_missing_values eh df [(col, v)]).2.getColumn col =
          (df.getColumn col).map (fillCell v) ∧
        (∀ c2, c2 ≠ col →
          (rectify_missing_values eh df [(col, v)]).2.getColumn c2 = df.getColumn c2) ∧
        (rectify_missing_values eh df [(col, v)]).2.cols = df.cols ∧
        (rectify_missing_values eh df [(col, v)]).1.errors = eh.errors ∧
        (rectify_missing_values eh df [(col, v)]).1.warnings = eh.warnings ∧
        (rectify_missing_values eh df [(col, v)]).1.corrections = eh.corrections ++
          [⟨"missing_values",
            "Filled " ++ toString (df.nullCount col) ++ " missing values in " ++ col,
            df.nullCount col⟩]) ∧
      (df.nullCount col = 0 → rectify_missing_values eh df [(col, v)] = (eh, df))) ∧
    (col ∉ df.cols → rectify_missing_values eh df [(col, v)] = (eh, df)) := by
  have heq : rectify_missing_values eh df [(col, v)] =
      (if col ∈ df.cols then
        (if df.nullCount col > 0 then
          (eh.log_correction "missing_values"
            ("Filled " ++ toString (df.nullCount col) ++ " missing values in " ++ col)
            (df.nullCount col),
           df.mapCol col (fillCell v))
        else (eh, df))
      else (eh, df)) := by
    unfold rectify_missing_values
    rw [List.foldl_cons, List.foldl_nil]
  constructor
  · intro hmem
    constructor
    · intro hpos
      rw [heq, if_pos hmem, if_pos hpos]
      refine ⟨getColumn_mapCol_self df col (fillCell v) hwf hmem, ?_, mapCol_cols df col _, rfl, rfl, rfl⟩
      intro c2 hne
      exact getColumn_mapCol_ne df col c2 (fillCell v) hne
    · intro h0
      rw [heq, if_pos hmem, if_neg (by omega)]
  · intro habs
    rw [heq, if_neg habs]

/-- Witness for C7: filling the single null of the `age` column. -/
theorem claim_C7_witness :
    (rectify_missing_values {} df7W [("age", Cell.num 0)]).2.getColumn "age" =
      (df7W.getColumn "age").map (fillCell (Cell.num 0)) ∧
    (rectify_missing_values {} df7W [("age", Cell.num 0)]).1.corrections =
      [⟨"missing_values", "Filled " ++ toString (df7W.nullCount "age") ++
        " missing values in " ++ "age", df7W.nullCount "age"⟩] :=
  ⟨(((claim_C7 {} df7W "age" (Cell.num 0) (by decide)).1 (by decide)).1 (by decide)).1,
   (((claim_C7 {} df7W "age" (Cell.num 0) (by decide)).1 (by decide)).1 (by decide)).2.2.2.2.2⟩

/-- Counterexample to C2 as stated: the column `base_pay` contains `pay`
(case-insensitively), holds the parseable numeral "123", yet type
rectification leaves the table untouched and logs no correction — the
source only numeric-coerces a column whose lowercased name contains
`salary` or whose exact name is `salary`, `pay`, `annual_salary`, or
`compensation`. -/
theorem claim_C2_cex :
    strContains (pyToLower "base_pay") "pay" = true ∧
    parseIntStr "123" = some 123 ∧
    rectify_data_types {} dfBasePay = ({}, dfBasePay) ∧
    (rectify_data_types {} dfBasePay).2.getColumn "base_pay" = [Cell.str "123"] ∧
    (rectify_data_types {} dfBasePay).1.corrections = [] :=
  ⟨by decide, by decide, by decide, by decide, by decide⟩

/-- Claim C2 (amended): columns whose lowercased name contains `date` or
`dob` are date-coerced with unparseable cells becoming null; columns whose
lowercased name contains `salary`, or literally named `salary`, `pay`,
`annual_salary` or `compensation`, are numeric-coerced the same way
(date matching wins when both apply); all other columns are untouched;
when at least one column was touched exactly one summary correction is
logged, counting the touched columns, with affected-rows equal to the row
count. -/
theorem claim_C2 (eh : ErrorHandler) (df : DataFrame) (hwf : df.WF)
    (hnd : df.cols.Nodup) :
    (rectify_data_types eh df).2.cols = df.cols ∧
    (rectify_data_types eh df).2.rows.length = df.rows.length ∧
    (∀ c ∈ df.cols, dateColPred c = true →
      (rectify_data_types eh df).2.getColumn c = (df.getColumn c).map toDatetimeCell) ∧
    (∀ c ∈ df.cols, dateColPred c = false → salaryColPred c = true →
      (rectify_data_types eh df).2.getColumn c = (df.getColumn c).map toNumericCell) ∧
    (∀ c, dateColPred c = false → salaryColPred c = false →
      (rectify_data_types eh df).2.getColumn c = df.getColumn c) ∧
    (df.cols.countP (fun c => dateColPred c || salaryColPred c) > 0 →
      (rectify_data_types eh df).1 = eh.log_correction "data_type_fix"
        ("Rectified data types for " ++
          toString (df.cols.countP (fun c => dateColPred c || salaryColPred c)) ++ " columns")
        df.rows.length) ∧
    (df.cols.countP (fun c => dateColPred c || salaryColPred c) = 0 →
      rectify_data_types eh df = (eh, df)) := by
  obtain ⟨h1, h2, _, h4, h5, h6, h7, h8⟩ := rtFold_spec df.cols df 0 hwf hnd (fun c hc => hc)
  have hsnd : (rectify_data_types eh df).2 = (df.cols.foldl rtStep (0, df)).2 := by
    unfold rectify_data_types
    dsimp only
    split <;> rfl
  refine ⟨by rw [hsnd]; exact h2, by rw [hsnd]; exact h4, ?_, ?_, ?_, ?_, ?_⟩
  · intro c hc hdc
    rw [hsnd]
    exact h5 c hc hdc
  · intro c hc hdc hsc
    rw [hsnd]
    exact h6 c hc hdc hsc
  · intro c hdc hsc
    rw [hsnd]
    exact h7 c (Or.inr ⟨hdc, hsc⟩)
  · intro hpos
    unfold rectify_data_types
    dsimp only
    rw [if_pos (by rw [h1]; simpa using hpos)]
    dsimp only
    rw [h1, h4]
    simp
  · intro h0
    have hfold := h8 h0
    unfold rectify_data_types
    dsimp only
    rw [hfold]
    simp

/-- Witness for C2 (amended) on a table with one date column and one
salary column. -/
theorem claim_C2_witness :
    (rectify_data_types {} df2W).2.cols = df2W.cols ∧
    (rectify_data_types {} df2W).2.getColumn "hire_date" =
      (df2W.getColumn "hire_date").map toDatetimeCell ∧
    (rectify_data_types {} df2W).2.getColumn "annual_salary" =
      (df2W.getColumn "annual_salary").map toNumericCell :=
  ⟨(claim_C2 {} df2W (by decide) (by decide)).1,
   (claim_C2 {} df2W (by decide) (by decide)).2.2.1 "hire_date" (by decide) (by decide),
   (claim_C2 {} df2W (by decide) (by decide)).2.2.2.1 "annual_salary" (by decide) (by decide) (by decide)⟩

/-- Counterexample to C3 as stated: with no configuration object the
transform phase succeeds but leaves the exact full-row duplicate pair in
place — `config and config.get(..remove_duplicates.., True)` is falsy for
a missing (or empty) config, so the pass is skipped rather than defaulted
on. -/
theorem claim_C3_cex :
    dfDup3W.rows.length = 2 ∧
    dropDupRows dfDup3W.rows = [[Cell.str "a"]] ∧
    (transform sDup3W none).2 = true ∧
    (transform sDup3W none).1.transformed_data = some dfDup3W ∧
    cfgRemoveDuplicates none = false ∧
    cfgRemoveDuplicates (some ({} : Config)) = false :=
  ⟨by decide, by decide, by decide, by decide, by decide, by decide⟩

/-- Claim C3 (amended): the transform phase removes exact full-row
duplicates whenever a configuration object with at least one option set is
supplied and it does not set remove_duplicates to false (the option then
defaults to true); with no configuration object, or an empty one, the
duplicate-removal pass is skipped.  (Final-column projection is excluded
since projecting can reintroduce duplicate rows.) -/
theorem claim_C3 (s : ETLState) (cd : DataFrame) (c : Config)
    (hcons : s.consolidated_data = some cd)
    (htr : c.isTruthy = true)
    (hrd : c.remove_duplicates ≠ some false)
    (hfc : c.final_columns = none) :
    (transform s (some c)).2 = true ∧
    ∃ t, (transform s (some c)).1.transformed_data = some t ∧ t.rows.Nodup := by
  have hrdt : cfgRemoveDuplicates (some c) = true := by
    show (c.isTruthy && c.remove_duplicates.getD true) = true
    rw [htr]
    cases hrdo : c.remove_duplicates with
    | none => rfl
    | some b =>
      cases b with
      | false => exact absurd hrdo hrd
      | true => rfl
  have hfct : cfgFinalColumns (some c) = none := by
    show (match c.final_columns with
      | some l => if l.isEmpty then none else some l
      | none => none) = none
    rw [hfc]
  unfold transform
  rw [hcons]
  dsimp only
  rw [hrdt, hfct]
  simp only [eq_self_iff_true, if_true]
  refine ⟨trivial, _, rfl, ?_⟩
  rw [(rectify_duplicates_parts _ _ _).1]
  exact dropDupRows_nodup _

/-- Witness for C3 (amended): a truthy config that leaves the option at
its default removes the duplicate pair. -/
theorem claim_C3_witness :
    (transform sDup3W (some c3W)).2 = true ∧
    ∃ t, (transform sDup3W (some c3W)).1.transformed_data = some t ∧ t.rows.Nodup :=
  claim_C3 sDup3W dfDup3W c3W (by decide) (by decide) (by decide) (by decide)

/-- Claim C6: consolidation fails (one error, state otherwise unchanged)
iff zero mapped tables survived; otherwise it stacks every surviving
table in registration order into a table whose column set is the union of
the inputs' column sets, whose row count is the sum of the inputs' row
counts, and in which each reindexed row is null at every column its
origin table lacks. -/
theorem claim_C6 (s : ETLState) (dfs : List DataFrame)
    (hdfs : s.data_sources.filterMap (fun p => p.2.data) = dfs) :
    (dfs = [] →
      (consolidate s).2 = false ∧
      (consolidate s).1.consolidated_data = s.consolidated_data ∧
      (consolidate s).1.eh.errors.length = s.eh.errors.length + 1) ∧
    (dfs ≠ [] →
      consolidate s = ({ s with consolidated_data := some (concatDF dfs) }, true) ∧
      (∀ c, c ∈ (concatDF dfs).cols ↔ ∃ df ∈ dfs, c ∈ df.cols) ∧
      (concatDF dfs).rows.length = (dfs.map (fun df => df.rows.length)).sum ∧
      (concatDF dfs).rows =
        (dfs.map (fun df => df.rows.map (reindexRow (concatDF dfs).cols df.cols))).flatten ∧
      (∀ df ∈ dfs, ∀ r : List Cell, ∀ c, c ∈ (concatDF dfs).cols → c ∉ df.cols →
        cellAt (concatDF dfs).cols (reindexRow (concatDF dfs).cols df.cols r) c = Cell.null)) := by
  constructor
  · intro he
    unfold consolidate
    rw [hdfs, he]
    dsimp only
    refine ⟨rfl, rfl, ?_⟩
    simp [ETLState.logError, ErrorHandler.log_error]
  · intro hne
    have hie : dfs.isEmpty = false := by
      cases dfs with
      | nil => exact absurd rfl hne
      | cons a l => rfl
    unfold consolidate
    rw [hdfs]
    dsimp only
    rw [hie, if_neg Bool.false_ne_true]
    refine ⟨rfl, ?_, concatDF_rows_length dfs, rfl, ?_⟩
    · intro c
      exact mem_unionCols dfs c
    · intro df hdf r c hcu habs
      exact cellAt_reindex_absent (concatDF dfs).cols df.cols r c hcu habs

/-- Witness for C6 at two surviving tables with disjoint columns. -/
theorem claim_C6_witness :
    consolidate s6W = ({ s6W with consolidated_data := some (concatDF dfs6W) }, true) ∧
    (concatDF dfs6W).rows.length = (dfs6W.map (fun df => df.rows.length)).sum :=
  ⟨((claim_C6 s6W dfs6W (by decide)).2 (by decide)).1,
   ((claim_C6 s6W dfs6W (by decide)).2 (by decide)).2.2.1⟩

/-- Claim C1: the claim is the code's own intent, but the code violates
it — here a run whose body completes successfully (and whose output and
ledger writes both succeed) still raises, because `print_error_summary`
iterates `enumerate` of the integer warning total inside the `finally`
block, a TypeError whenever at least one warning was logged. -/
theorem claim_C1 :
    (runBody envC1 none sC1).1 = true ∧
    (runBody envC1 none sC1).2.pipeline_status = "completed_successfully" ∧
    (runBody envC1 none sC1).2.eh.warnings.length = 1 ∧
    envC1.writeOk = true ∧
    envC1.ledgerWriteOk = true ∧
    run envC1 none sC1 = Except.error "TypeError: int object is not iterable" :=
  ⟨by decide, by decide, by decide, rfl, rfl, rfl⟩

/-- One loop iteration of `extract_and_map_all` over a source whose file
is absent: one error is logged, the status becomes `file_not_found`, and
the source does not count as successful. -/
theorem processSource_missing (env : Env) (s : ETLState) (name : String)
    (info : SourceInfo) (hlk : s.lookupSource name = some info)
    (hmiss : env.fs info.filename = FileOutcome.missing) :
    processSource env s name =
      (((s.logError "validation" ("File not found: " ++ info.filename)
        (some "This file is required for processing")).setStatus name "file_not_found"),
       false) := by
  unfold processSource extract_source
  rw [hlk]
  dsimp only
  rw [hmiss]

/-- Folding the extract-and-map loop over sources whose files are all
absent: zero successes, one error per processed name, and the rest of the
pipeline state untouched. -/
theorem emFold_missing (env : Env) (names : List String) :
    ∀ (s : ETLState) (n : Nat),
      (∀ p ∈ s.data_sources, env.fs p.2.filename = FileOutcome.missing) →
      (∀ nm ∈ names, nm ∈ s.data_sources.map (fun p => p.1)) →
      (names.foldl (emStep env) (s, n)).2 = n ∧
      (names.foldl (emStep env) (s, n)).1.eh.errors.length
        = s.eh.errors.length + names.length ∧
      (names.foldl (emStep env) (s, n)).1.consolidated_data = s.consolidated_data ∧
      (names.foldl (emStep env) (s, n)).1.transformed_data = s.transformed_data ∧
      (names.foldl (emStep env) (s, n)).1.pipeline_status = s.pipeline_status ∧
      (names.foldl (emStep env) (s, n)).1.data_sources.map (fun p => (p.1, p.2.filename))
        = s.data_sources.map (fun p => (p.1, p.2.filename)) := by
  induction names with
  | nil =>
    intro s n _ _
    exact ⟨rfl, by simp, rfl, rfl, rfl, rfl⟩
  | cons name rest ih =>
    intro s n hmiss hkeys
    rw [List.foldl_cons]
    obtain ⟨info, hinfo⟩ := alookup_of_mem_keys s.data_sources name
      (hkeys name (List.mem_cons_self name rest))
    have hmi : env.fs info.filename = FileOutcome.missing :=
      hmiss (name, info) (alookup_mem s.data_sources name info hinfo)
    have hps := processSource_missing env s name info hinfo hmi
    have hstep : emStep env (s, n) name =
        (((s.logError "validation" ("File not found: " ++ info.filename)
          (some "This file is required for processing")).setStatus name "file_not_found"),
         n) := by
      unfold emStep
      rw [hps]
      rfl
    rw [hstep]
    set s1 := (s.logError "validation" ("File not found: " ++ info.filename)
      (some "This file is required for processing")).setStatus name "file_not_found" with hs1
    have hkf : s1.data_sources.map (fun p => (p.1, p.2.filename)) =
        s.data_sources.map (fun p => (p.1, p.2.filename)) := by
      rw [hs1]
      unfold ETLState.setStatus ETLState.logError
      dsimp only
      exact updateSource_keyfile s.data_sources name _ (fun i => rfl)
    have herr : s1.eh.errors.length = s.eh.errors.length + 1 := by
      rw [hs1]
      simp [ETLState.setStatus, ETLState.logError, ErrorHandler.log_error]
    have hcons1 : s1.consolidated_data = s.consolidated_data := by
      rw [hs1]
      rfl
    have htrans1 : s1.transformed_data = s.transformed_data := by
      rw [hs1]
      rfl
    have hstat1 : s1.pipeline_status = s.pipeline_status := by
      rw [hs1]
      rfl
    have hmiss1 : ∀ p ∈ s1.data_sources, env.fs p.2.filename = FileOutcome.missing := by
      intro p hp
      have hmem : (p.1, p.2.filename) ∈ s1.data_sources.map (fun q => (q.1, q.2.filename)) :=
        List.mem_map_of_mem _ hp
      rw [hkf] at hmem
      obtain ⟨q, hq, he⟩ := List.mem_map.mp hmem
      have hfn : q.2.filename = p.2.filename := congrArg Prod.snd he
      rw [← hfn]
      exact hmiss q hq
    have hkeys1 : ∀ nm ∈ rest, nm ∈ s1.data_sources.map (fun p => p.1) := by
      intro nm hnm
      have hkeq : s1.data_sources.map (fun p => p.1) = s.data_sources.map (fun p => p.1) := by
        have h2 := congrArg (List.map Prod.fst) hkf
        simpa [List.map_map, Function.comp] using h2
      rw [hkeq]
      exact hkeys nm (List.mem_cons_of_mem name hnm)
    obtain ⟨i1, i2, i3, i4, i5, i6⟩ := ih s1 n hmiss1 hkeys1
    refine ⟨i1, ?_, by rw [i3, hcons1], by rw [i4, htrans1], by rw [i5, hstat1],
      by rw [i6, hkf]⟩
    rw [i2, herr]
    simp only [List.length_cons]
    omega

/-- Counterexample to C5 as stated: two sources whose files parse to
zero-row tables fail VALIDATION, which logs warnings rather than errors —
the run still ends `failed_extract` with both tables unset, but the
ledger's total error count is 1 (the phase-failure error), strictly below
the number of registered sources (2). -/
theorem claim_C5_cex :
    sC5.data_sources.length = 2 ∧
    (runBody envC5v none sC5).1 = false ∧
    (runBody envC5v none sC5).2.pipeline_status = "failed_extract" ∧
    (runBody envC5v none sC5).2.consolidated_data = none ∧
    (runBody envC5v none sC5).2.transformed_data = none ∧
    (runBody envC5v none sC5).2.eh.warnings.length = 2 ∧
    (runBody envC5v none sC5).2.eh.errors.length = 1 :=
  ⟨by decide, by decide, by decide, by decide, by decide, by decide, by decide⟩

/-- Claim C5 (amended): when every registered source points at a missing
file, the run body returns false with terminal status `failed_extract`,
the consolidation/transformation/loading phases never run (both tables
remain unset), and the ledger gains one error per source plus the
phase-failure error — in particular at least as many errors as sources. -/
theorem claim_C5 (env : Env) (config : Option Config) (s0 : ETLState)
    (hmiss : ∀ p ∈ s0.data_sources, env.fs p.2.filename = FileOutcome.missing)
    (hcons : s0.consolidated_data = none)
    (htrans : s0.transformed_data = none) :
    (runBody env config s0).1 = false ∧
    (runBody env config s0).2.pipeline_status = "failed_extract" ∧
    (runBody env config s0).2.consolidated_data = none ∧
    (runBody env config s0).2.transformed_data = none ∧
    (runBody env config s0).2.eh.errors.length =
      s0.eh.errors.length + s0.data_sources.length + 1 ∧
    s0.data_sources.length ≤ (runBody env config s0).2.eh.errors.length := by
  obtain ⟨f1, f2, f3, f4, f5, f6⟩ := emFold_missing env
    (s0.data_sources.map (fun p => p.1)) s0 0 hmiss (fun nm h => h)
  have hemaa : extract_and_map_all env s0 =
      (((s0.data_sources.map (fun p => p.1)).foldl (emStep env) (s0, 0)).1, false) := by
    unfold extract_and_map_all
    dsimp only
    rw [f1]
    rfl
  unfold runBody
  rw [hemaa]
  dsimp only
  rw [if_neg Bool.false_ne_true]
  refine ⟨rfl, by simp [ETLState.setPipelineStatus], ?_, ?_, ?_, ?_⟩
  · simp only [ETLState.setPipelineStatus, ETLState.logError]
    rw [f3, hcons]
  · simp only [ETLState.setPipelineStatus, ETLState.logError]
    rw [f4, htrans]
  · simp only [ETLState.setPipelineStatus, ETLState.logError, ErrorHandler.log_error,
      List.length_append]
    rw [f2]
    have hlen2 : (List.map (fun p => p.1) s0.data_sources).length = s0.data_sources.length :=
      by simp
    rw [hlen2]
    rfl
  · simp only [ETLState.setPipelineStatus, ETLState.logError, ErrorHandler.log_error,
      List.length_append]
    rw [f2]
    have hlen2 : (List.map (fun p => p.1) s0.data_sources).length = s0.data_sources.length :=
      by simp
    rw [hlen2]
    simp only [List.length_singleton]
    omega

/-- Witness for C5 (amended): two registered sources, every file absent. -/
theorem claim_C5_witness :
    (runBody envC5m none sC5).1 = false ∧
    (runBody envC5m none sC5).2.pipeline_status = "failed_extract" ∧
    (runBody envC5m none sC5).2.consolidated_data = none ∧
    (runBody envC5m none sC5).2.transformed_data = none ∧
    (runBody envC5m none sC5).2.eh.errors.length =
      sC5.eh.errors.length + sC5.data_sources.length + 1 ∧
    sC5.data_sources.length ≤ (runBody envC5m none sC5).2.eh.errors.length :=
  claim_C5 envC5m none sC5 (fun _ _ => rfl) rfl rfl
